import Mathlib

/-!
Shallow embedding of the hertta-converter tabular-to-domain-model layer.

Python floats are modelled as rationals (`Rat`) plus an explicit NaN
(`PFloat`); machine rounding, `inf`/`nan` string literals and digit
underscores are outside the model.  Spreadsheet cells as produced by
`pandas.read_csv` are modelled by `Cell`: a missing cell is `nan`, a cell
is otherwise a string, an integer or a float; `pynone` models the Python
`None` object (returned by `row.get` on an absent column label, never a
cell value itself).
-/

namespace Hertta

/-- A Python value as it can appear in a parsed cell or be passed to the
coercion helpers. -/
inductive Cell where
  | pynone
  | nan
  | str (s : String)
  | int (n : Int)
  | float (q : Rat)
deriving DecidableEq

/-- Characters stripped by Python `str.strip()` (whitespace). -/
def trimChars (cs : List Char) : List Char :=
  ((cs.dropWhile Char.isWhitespace).reverse.dropWhile Char.isWhitespace).reverse

/-- Python `s.strip()`. -/
def pyStrip (s : String) : String := String.mk (trimChars s.toList)

/-- Python `s.lower()` (ASCII letters suffice for the repository's data). -/
def pyLower (s : String) : String := String.mk (s.toList.map Char.toLower)

/-- Python `s.upper()`. -/
def pyUpper (s : String) : String := String.mk (s.toList.map Char.toUpper)

/-- Python `s.replace(",", ".")`, used for Finnish-style decimal commas. -/
def commaToDot (cs : List Char) : List Char :=
  cs.map (fun c => if c = ',' then '.' else c)

/-- String-level wrapper of `commaToDot`. -/
def pyReplaceCommaDot (s : String) : String := String.mk (commaToDot s.toList)

/-- Value of a list of decimal digit characters. -/
def digitsToNat (cs : List Char) : Nat :=
  cs.foldl (fun a c => 10 * a + (c.toNat - 48)) 0

/-- Fuel-based Euclidean gcd (structurally recursive, so the kernel can
evaluate it, unlike `Nat.gcd`). -/
def gcdAux : Nat → Nat → Nat → Nat
  | 0, _, n => n
  | fuel + 1, m, n => if m = 0 then n else gcdAux fuel (n % m) m

/-- `Nat.gcd` via `gcdAux` with sufficient fuel. -/
def myGcd (m n : Nat) : Nat := gcdAux (m + 1) m n

theorem gcdAux_eq (fuel : Nat) :
    ∀ m n, m ≤ fuel → gcdAux fuel m n = Nat.gcd m n := by
  induction fuel with
  | zero =>
      intro m n h
      have hm : m = 0 := Nat.le_zero.mp h
      subst hm
      simp [gcdAux]
  | succ f ih =>
      intro m n h
      by_cases hm : m = 0
      · subst hm
        simp [gcdAux]
      · have hlt : n % m < m := Nat.mod_lt n (Nat.pos_of_ne_zero hm)
        have hle : n % m ≤ f := by omega
        rw [show gcdAux (f + 1) m n = gcdAux f (n % m) m by simp [gcdAux, hm],
            ih (n % m) m hle]
        exact (Nat.gcd_rec m n).symm

theorem myGcd_eq (m n : Nat) : myGcd m n = Nat.gcd m n :=
  gcdAux_eq (m + 1) m n (Nat.le_succ m)

/-- Build the reduced rational `n / d` (for `d ≠ 0`) with only
kernel-computable arithmetic. -/
def qMake (n : Int) (d : Nat) : Rat :=
  if hd : d = 0 then 0
  else
    let g := myGcd n.natAbs d
    have hg : g = Nat.gcd n.natAbs d := myGcd_eq n.natAbs d
    have hgpos : 0 < Nat.gcd n.natAbs d :=
      Nat.gcd_pos_of_pos_right _ (Nat.pos_of_ne_zero hd)
    { num := if n < 0 then -((n.natAbs / g : Nat) : Int) else ((n.natAbs / g : Nat) : Int)
      den := d / g
      den_nz := by
        rw [hg]
        exact (Nat.div_pos
          (Nat.le_of_dvd (Nat.pos_of_ne_zero hd) (Nat.gcd_dvd_right _ _)) hgpos).ne'
      reduced := by
        have habs : (if n < 0 then -((n.natAbs / g : Nat) : Int)
            else ((n.natAbs / g : Nat) : Int)).natAbs = n.natAbs / g := by
          split <;> simp only [Int.natAbs_neg, Int.natAbs_ofNat]
        rw [habs, hg]
        exact Nat.coprime_div_gcd_div_gcd hgpos }

/-- The exact value `±(ip.fp)·10^e` of a parsed float literal, built as a
single reduced fraction (numerator and denominator are powers of ten, so
no rational arithmetic is needed). -/
def qOfParts (neg : Bool) (ip fp : List Char) (e : Int) : Rat :=
  let num0 : Nat := digitsToNat ip * 10 ^ fp.length + digitsToNat fp
  let num1 : Nat := if 0 ≤ e then num0 * 10 ^ e.toNat else num0
  let den : Nat := if 0 ≤ e then 10 ^ fp.length else 10 ^ fp.length * 10 ^ (-e).toNat
  qMake (if neg then -(num1 : Int) else (num1 : Int)) den

/-- Python `float(s)` on a string: optional sign, digits with an optional
dot and fraction, optional exponent; anything else raises (here: `none`).
Digit underscores and the `nan`/`inf` literals are outside the model. -/
def pyFloatOfChars (cs0 : List Char) : Option Rat :=
  let cs := trimChars cs0
  let neg : Bool := cs.head? == some '-'
  let cs := if cs.head? = some '-' ∨ cs.head? = some '+' then cs.tail else cs
  let ip := cs.takeWhile Char.isDigit
  let cs := cs.dropWhile Char.isDigit
  let hasDot := cs.head? = some '.'
  let fp := if hasDot then cs.tail.takeWhile Char.isDigit else []
  let cs := if hasDot then cs.tail.dropWhile Char.isDigit else cs
  if ip.isEmpty && fp.isEmpty then none
  else if cs.isEmpty then some (qOfParts neg ip fp 0)
  else if cs.head? = some 'e' ∨ cs.head? = some 'E' then
    let cs := cs.tail
    let eneg : Bool := cs.head? == some '-'
    let cs := if cs.head? = some '-' ∨ cs.head? = some '+' then cs.tail else cs
    let ed := cs.takeWhile Char.isDigit
    let rest := cs.dropWhile Char.isDigit
    if ed.isEmpty || !rest.isEmpty then none
    else some (qOfParts neg ip fp
      (if eneg then -(digitsToNat ed : Int) else (digitsToNat ed : Int)))
  else none

/-- Python `float(s)` on a string. -/
def pyFloatOfString (s : String) : Option Rat := pyFloatOfChars s.toList

/-- Python `int(s)` on a string: optional sign and digits only. -/
def pyIntOfChars (cs0 : List Char) : Option Int :=
  let cs := trimChars cs0
  let sgn : Int := if cs.head? = some '-' then -1 else 1
  let cs := if cs.head? = some '-' ∨ cs.head? = some '+' then cs.tail else cs
  let d := cs.takeWhile Char.isDigit
  let rest := cs.dropWhile Char.isDigit
  if d.isEmpty || !rest.isEmpty then none
  else some (sgn * (digitsToNat d : Int))

/-- Python `int(s)` on a string. -/
def pyIntOfString (s : String) : Option Int := pyIntOfChars s.toList

/-- A Python float value: finite (as a rational) or NaN. -/
inductive PFloat where
  | fin (q : Rat)
  | nan
deriving DecidableEq

/-- Left-pad a numeral string with zeros to length `k`. -/
def natPad (s : String) (k : Nat) : String :=
  if s.length ≥ k then s else String.mk (List.replicate (k - s.length) '0') ++ s

/-- Python `str` on a finite float whose value is a terminating decimal
(the only floats the repository's sheets produce); scientific notation
for very large/small magnitudes is outside the model. -/
def decimalRepr (q : Rat) : String :=
  if q.den = 1 then toString q.num ++ ".0"
  else
    match (List.range 61).find? (fun k => 10 ^ k % q.den = 0) with
    | some k =>
        let sign := if q.num < 0 then "-" else ""
        let n := q.num.natAbs * (10 ^ k / q.den)
        sign ++ toString (n / 10 ^ k) ++ "." ++ natPad (toString (n % 10 ^ k)) k
    | none => toString q.num ++ "/" ++ toString q.den

/-- Python `str(x)`. -/
def pyStr : Cell → String
  | .pynone => "None"
  | .nan => "nan"
  | .str s => s
  | .int n => toString n
  | .float q => decimalRepr q

/-- Python `int(x)`; `none` models a raised `ValueError`/`TypeError`.
`int` truncates a float toward zero. -/
def pyInt : Cell → Option Int
  | .pynone => none
  | .nan => none
  | .str s => pyIntOfString s
  | .int n => some n
  | .float q => some (Int.tdiv q.num q.den)

/-- Python `float(x)`; `none` models a raised `ValueError`/`TypeError`. -/
def pyFloat : Cell → Option PFloat
  | .pynone => none
  | .nan => some .nan
  | .str s => (pyFloatOfString s).map .fin
  | .int n => some (.fin n)
  | .float q => some (.fin q)

/-- Python `bool(x)` (truthiness). -/
def pyTruthy : Cell → Bool
  | .pynone => false
  | .nan => true
  | .str s => !s.isEmpty
  | .int n => decide (n ≠ 0)
  | .float q => decide (q ≠ 0)

/-- pandas `isna`: NaN and None are NA. -/
def isna : Cell → Bool
  | .pynone => true
  | .nan => true
  | _ => false

/-- `_to_bool` of parse_nodes.py, parse_processes.py and parse_markets.py
(textually identical in the three files). -/
def to_bool (raw : Cell) : Bool :=
  match raw with
  | .pynone => false
  | .str s =>
      let v := pyLower (pyStrip s)
      if v ∈ ["1", "true", "yes", "y", "t"] then true
      else if v ∈ ["0", "false", "no", "n", "f", ""] then false
      else
        match pyInt raw with
        | some n => decide (n ≠ 0)
        | none => pyTruthy raw
  | _ =>
      match pyInt raw with
      | some n => decide (n ≠ 0)
      | none => pyTruthy raw

/-- `_to_float` of parse_nodes.py, parse_processes.py and
parse_topologies.py (identical in the three files): no comma
normalization; the Python default argument `0.0` is passed explicitly by
every caller here. -/
def to_float (raw : Cell) (default : PFloat) : PFloat :=
  match raw with
  | .pynone => default
  | .str s =>
      if pyStrip s = "" then default
      else
        match pyFloat raw with
        | some v => v
        | none => default
  | _ =>
      match pyFloat raw with
      | some v => v
      | none => default

/-- `_to_float` of parse_markets.py, parse_risk.py and parse_scenarios.py:
strips, normalizes a decimal comma to a dot, then parses. -/
def to_float_comma (raw : Cell) (default : PFloat) : PFloat :=
  match raw with
  | .pynone => default
  | .str s =>
      let t := pyStrip s
      if t = "" then default
      else
        match pyFloatOfString (pyReplaceCommaDot t) with
        | some q => .fin q
        | none => default
  | _ =>
      match pyFloat raw with
      | some v => v
      | none => default

/-- `_to_float_list` of parse_inflow.py, parse_node_price.py and
parse_market_prices.py (identical in the three files): drop NA cells,
stringify, strip, normalize decimal commas, drop unparsable cells. -/
def to_float_list_comma (cells : List Cell) : List Rat :=
  cells.filterMap fun v =>
    if isna v then none
    else
      let s := pyStrip (pyStr v)
      if s = "" then none
      else pyFloatOfChars (commaToDot s.toList)

/-- `_to_float_list` of parse_cf.py: drop NA cells, `float(v)` directly —
no stringify/strip step and no comma normalization; unconvertible cells
are dropped.  (`pyFloat v = some .nan` is impossible here because NA
cells were already dropped.) -/
def to_float_list_cf (cells : List Cell) : List Rat :=
  cells.filterMap fun v =>
    if isna v then none
    else
      match pyFloat v with
      | some (.fin q) => some q
      | _ => none

/-! ## Value descriptors and the wide-series decoders -/

/-- The representation part of a decoded descriptor: either a collapsed
constant or an ordered series. -/
inductive SeriesRep where
  | constant (value : Rat)
  | series (values : List Rat)
deriving DecidableEq

/-- A decoded ValueInput / ForecastValueInput descriptor. -/
structure ValueInput where
  scenario : Option String
  rep : SeriesRep
deriving DecidableEq

/-- Python `header.split(",", 1)`: split at the first comma. -/
def splitFirstComma : List Char → List Char × List Char
  | [] => ([], [])
  | c :: r =>
      if c = ',' then ([], r)
      else
        let p := splitFirstComma r
        (c :: p.1, p.2)

/-- The header-parsing part of the per-column loop shared by the
wide-series decoders (parse_inflow.py 67-100, parse_cf.py 59-92,
parse_node_price.py 58-90, parse_market_prices.py 64-96): strip the
label, skip blank headers, split entity/scenario at the first comma
(`ALL`, case-insensitive, normalizes to `none`), skip blank entity
names.  `decodeColumn` below is the value part of the same loop body;
`toList` is the file's `_to_float_list`, and `len(set(values)) == 1` is
`values.dedup.length = 1`. -/
def columnKey (col : String) : Option (String × Option String) :=
  let header := pyStrip col
  if header = "" then none
  else
    let pair :=
      if ',' ∈ header.toList then
        let p := splitFirstComma header.toList
        let name := pyStrip (String.mk p.1)
        let scRaw := pyStrip (String.mk p.2)
        (name, if pyUpper scRaw = "ALL" then none else some scRaw)
      else (header, (none : Option String))
    if pair.1 = "" then none
    else some pair

/-- The value part of the per-column loop, given the parsed header key. -/
def decodeColumn (toList : List Cell → List Rat) (col : String) (cells : List Cell) :
    Option (String × ValueInput) :=
  match columnKey col with
  | none => none
  | some pair =>
      match toList cells with
      | [] => none
      | v :: vs =>
          if (v :: vs).dedup.length = 1 then some (pair.1, ⟨pair.2, .constant v⟩)
          else some (pair.1, ⟨pair.2, .series (v :: vs)⟩)

/-- A wide-format sheet: labelled columns of cells (first column is the
time axis). -/
structure WideSheet where
  cols : List (String × List Cell)

/-- The decoder main loop over the data columns; a missing source file or
`EmptyDataError` is handled by the caller (empty map, see the sources'
early returns), the `df.empty or len(df.columns) <= 1` guard is here.
The Python dict `{name: [vi, ...]}` built with `setdefault(...).append`
is represented flat, as the (column-ordered) list of produced
`(name, descriptor)` entries. -/
def decodeSheet (toList : List Cell → List Rat) (sheet : WideSheet) :
    List (String × ValueInput) :=
  if sheet.cols.all (fun c => c.2.isEmpty) || sheet.cols.length ≤ 1 then []
  else (sheet.cols.drop 1).filterMap fun c => decodeColumn toList c.1 c.2

/-- parse_inflow.py `parse_inflow_csv_to_node_inflow` (df part). -/
def parse_inflow (sheet : WideSheet) : List (String × ValueInput) :=
  decodeSheet to_float_list_comma sheet

/-- parse_cf.py `parse_cf_csv_to_process_cf` (df part). -/
def parse_cf (sheet : WideSheet) : List (String × ValueInput) :=
  decodeSheet to_float_list_cf sheet

/-- Membership test of the decoded name→descriptors dict
(`name in inflow_map`). -/
def mapMem (entries : List (String × ValueInput)) (name : String) : Bool :=
  entries.any (fun e => e.1 == name)

/-- Lookup in the decoded name→descriptors dict (`inflow_map[name]`):
all descriptors recorded for the name, in column order. -/
def mapEntries (entries : List (String × ValueInput)) (name : String) :
    List ValueInput :=
  (entries.filter (fun e => e.1 == name)).map (·.2)

/-! ## Row-sheet model -/

/-- A row record: cells keyed by column label. -/
abbrev Row := List (String × Cell)

/-- pandas `row.get(col)`: the cell, or `None` when the label is absent. -/
def Row.get (r : Row) (c : String) : Cell :=
  match r.find? (fun p => p.1 == c) with
  | some p => p.2
  | none => .pynone

/-- A long-format sheet: its column labels and its rows. -/
structure CsvSheet where
  cols : List String
  rows : List Row

/-! ## Node and node-state parsing (parse_nodes.py) -/

/-- A NewNode input record (parse_nodes.py 69-77). -/
structure NewNode where
  name : String
  isCommodity : Bool
  isMarket : Bool
  isRes : Bool
  cost : List ValueInput
  inflow : List ValueInput
deriving DecidableEq

/-- parse_nodes.py `parse_nodes_csv_to_newnodes` (df part). -/
def parse_nodes (sheet : CsvSheet) : Except String (List NewNode) :=
  if ["node", "is_commodity", "is_res", "is_market"].all
      (fun c => decide (c ∈ sheet.cols)) then
    .ok (sheet.rows.filterMap fun row =>
      let name := pyStrip (pyStr (Row.get row "node"))
      if name = "" then none
      else some
        { name
          isCommodity := to_bool (Row.get row "is_commodity")
          isMarket := to_bool (Row.get row "is_market")
          isRes := to_bool (Row.get row "is_res")
          cost := []
          inflow := [] })
  else .error "nodes.csv is missing a required column"

/-- A NewState input record (parse_nodes.py 130-141). -/
structure NewState where
  inMax : PFloat
  outMax : PFloat
  stateLossProportional : PFloat
  stateMin : PFloat
  stateMax : PFloat
  initialState : PFloat
  isScenarioIndependent : Bool
  isTemp : Bool
  tEConversion : PFloat
  residualValue : PFloat
deriving DecidableEq

/-- The `state` defaults dict of parse_nodes.py 130-141. -/
def defaultState : NewState :=
  { inMax := .fin 0, outMax := .fin 0, stateLossProportional := .fin 0,
    stateMin := .fin 0, stateMax := .fin 0, initialState := .fin 0,
    isScenarioIndependent := true, isTemp := false,
    tEConversion := .fin 1, residualValue := .fin 0 }

/-- The `state_col_map` overwrite loop of parse_nodes.py 143-150.  Each
mapped field is written at most once, so the loop is unrolled field-wise:
a field keeps its default when its source column is absent, and is
otherwise coerced from the row's cell (numeric coercion defaulting to the
field's default, booleans via `_to_bool`). -/
def buildState (cols : List String) (row : Row) : NewState :=
  { inMax :=
      if "in_max" ∈ cols then to_float (Row.get row "in_max") (.fin 0) else .fin 0
    outMax :=
      if "out_max" ∈ cols then to_float (Row.get row "out_max") (.fin 0) else .fin 0
    stateLossProportional :=
      if "state_loss_proportional" ∈ cols then
        to_float (Row.get row "state_loss_proportional") (.fin 0)
      else .fin 0
    stateMin :=
      if "state_min" ∈ cols then to_float (Row.get row "state_min") (.fin 0) else .fin 0
    stateMax :=
      if "state_max" ∈ cols then to_float (Row.get row "state_max") (.fin 0) else .fin 0
    initialState :=
      if "initial_state" ∈ cols then to_float (Row.get row "initial_state") (.fin 0)
      else .fin 0
    isScenarioIndependent :=
      if "scenario_independent_state" ∈ cols then
        to_bool (Row.get row "scenario_independent_state")
      else true
    isTemp :=
      if "is_temp" ∈ cols then to_bool (Row.get row "is_temp") else false
    tEConversion :=
      if "t_e_conversion" ∈ cols then to_float (Row.get row "t_e_conversion") (.fin 1)
      else .fin 1
    residualValue :=
      if "residual_value" ∈ cols then to_float (Row.get row "residual_value") (.fin 0)
      else .fin 0 }

/-- A node-state item `{"nodeName": ..., "state": ...}`. -/
structure NodeStateItem where
  nodeName : String
  state : NewState
deriving DecidableEq

/-- The per-row body of parse_nodes.py `parse_node_states_from_nodes_csv`
(lines 120-152): skip blank names; skip the row when the sheet has an
`is_state` column whose cell coerces to false; otherwise emit. -/
def stateForRow (cols : List String) (row : Row) : Option NodeStateItem :=
  let name := pyStrip (pyStr (Row.get row "node"))
  if name = "" then none
  else if "is_state" ∈ cols ∧ ¬ to_bool (Row.get row "is_state") then none
  else some ⟨name, buildState cols row⟩

/-- parse_nodes.py `parse_node_states_from_nodes_csv` (df part). -/
def parse_node_states (sheet : CsvSheet) : Except String (List NodeStateItem) :=
  if "node" ∈ sheet.cols then .ok (sheet.rows.filterMap (stateForRow sheet.cols))
  else .error "nodes.csv must have a 'node' column for node names."

/-! ## Process parsing (parse_processes.py) -/

/-- parse_processes.py `_map_conversion`: `.error` models the raised
`ValueError`. -/
def map_conversion (raw : Cell) : Except String String :=
  match raw with
  | .pynone => .ok "UNIT"
  | _ =>
      let s := pyLower (pyStrip (pyStr raw))
      if s ∈ ["1", "unit", "u"] then .ok "UNIT"
      else if s ∈ ["2", "transfer", "t"] then .ok "TRANSFER"
      else if s ∈ ["3", "market", "m"] then .ok "MARKET"
      else .error ("Unsupported conversion value " ++ s ++
        " in processes.csv; expected 1/2/3 or Unit/Transfer/Market")

/-- A NewProcess input record (parse_processes.py 108-128). -/
structure NewProcess where
  name : String
  conversion : String
  isCfFix : Bool
  isOnline : Bool
  isRes : Bool
  eff : PFloat
  loadMin : PFloat
  loadMax : PFloat
  startCost : PFloat
  minOnline : PFloat
  maxOnline : PFloat
  minOffline : PFloat
  maxOffline : PFloat
  initialState : Bool
  isScenarioIndependent : Bool
  cf : List ValueInput
  effTs : List ValueInput
  effOpsFun : List ValueInput
deriving DecidableEq

/-- The per-row body of parse_processes.py 101-130: an unrecognized
`conversion` cell aborts the whole parse (`.error`); a blank name skips
the row (`.ok none`). -/
def processRow (row : Row) : Except String (Option NewProcess) :=
  let name := pyStrip (pyStr (Row.get row "process"))
  if name = "" then .ok none
  else
    match map_conversion (Row.get row "conversion") with
    | .error e => .error e
    | .ok conv => .ok (some
        { name
          conversion := conv
          isCfFix := to_bool (Row.get row "is_cf_fix")
          isOnline := to_bool (Row.get row "is_online")
          isRes := to_bool (Row.get row "is_res")
          eff := to_float (Row.get row "eff") (.fin 1)
          loadMin := to_float (Row.get row "load_min") (.fin 0)
          loadMax := to_float (Row.get row "load_max") (.fin 1)
          startCost := to_float (Row.get row "start_cost") (.fin 0)
          minOnline := to_float (Row.get row "min_online") (.fin 0)
          maxOnline := to_float (Row.get row "max_online") (.fin 0)
          minOffline := to_float (Row.get row "min_offline") (.fin 0)
          maxOffline := to_float (Row.get row "max_offline") (.fin 0)
          initialState := to_bool (Row.get row "initial_state")
          isScenarioIndependent := to_bool (Row.get row "scenario_independent_online")
          cf := [], effTs := [], effOpsFun := [] })

/-- The `required_cols` list of parse_processes.py 75-91. -/
def requiredProcessCols : List String :=
  ["process", "is_cf_fix", "is_online", "is_res", "conversion", "eff",
   "load_min", "load_max", "start_cost", "min_online", "min_offline",
   "max_online", "max_offline", "initial_state", "scenario_independent_online"]

/-- parse_processes.py `parse_processes_csv_to_newprocesses` (df part). -/
def parse_processes (sheet : CsvSheet) : Except String (List NewProcess) :=
  if requiredProcessCols.all (fun c => decide (c ∈ sheet.cols)) then
    match sheet.rows.mapM processRow with
    | .error e => .error e
    | .ok l => .ok (l.filterMap id)
  else .error "processes.csv is missing a required column"

/-! ## Setup parsing (parse_setup.py) -/

/-- A value of the InputDataSetupInput dict. -/
inductive SetupVal where
  | b (v : Bool)
  | i (n : Int)
  | s (v : String)
  | f (v : PFloat)
deriving DecidableEq

/-- One row of setup.csv (the sheet's `parameter` and `value` columns). -/
structure SetupRow where
  parameter : Cell
  value : Cell
deriving DecidableEq

/-- The `field_map` dict of parse_setup.py 8-18. -/
def field_map : List (String × String) :=
  [("use_market_bids", "useMarketBids"),
   ("use_reserves", "useReserves"),
   ("use_reserve_realisation", "useReserveRealisation"),
   ("use_node_dummy_variables", "useNodeDummyVariables"),
   ("use_ramp_dummy_variables", "useRampDummyVariables"),
   ("common_start_timesteps", "commonTimesteps"),
   ("common_scenario_name", "commonScenarioName"),
   ("node_dummy_variable_cost", "nodeDummyVariableCost"),
   ("ramp_dummy_variable_cost", "rampDummyVariableCost")]

/-- The `bool_params` set of parse_setup.py 20-26. -/
def bool_params : List String :=
  ["use_market_bids", "use_reserves", "use_reserve_realisation",
   "use_node_dummy_variables", "use_ramp_dummy_variables"]

/-- The inline boolean coercion of parse_setup.py 43-48: a string is true
iff it is `1`/`true`/`yes` after strip+lower; anything else goes through
`bool(int(raw_value))`, whose failure (`.error`) is not caught. -/
def setupBool (raw : Cell) : Except String Bool :=
  match raw with
  | .str s => .ok (decide (pyLower (pyStrip s) ∈ ["1", "true", "yes"]))
  | _ =>
      match pyInt raw with
      | some n => .ok (decide (n ≠ 0))
      | none => .error "invalid literal for int()"

/-- The non-NA value coercion of parse_setup.py 43-54, by parameter kind. -/
def setupValue (param : String) (raw : Cell) : Except String SetupVal :=
  if param ∈ bool_params then
    match setupBool raw with
    | .ok b => .ok (.b b)
    | .error e => .error e
  else if param = "common_start_timesteps" then
    match pyInt raw with
    | some n => .ok (.i n)
    | none => .error "invalid literal for int()"
  else if param = "common_scenario_name" then .ok (.s (pyStr raw))
  else
    match pyFloat raw with
    | some v => .ok (.f v)
    | none => .error "could not convert to float"

/-- The InputDataSetupInput dict: GraphQL field name to value (`none`
value = JSON null), insertion-ordered. -/
abbrev SetupDict := List (String × Option SetupVal)

/-- Python dict assignment `d[k] = v`: overwrite in place, else append. -/
def dictSet (d : SetupDict) (k : String) (v : Option SetupVal) : SetupDict :=
  if d.any (fun p => p.1 == k) then
    d.map (fun p => if p.1 == k then (k, v) else p)
  else d ++ [(k, v)]

/-- Python dict lookup: `some` iff the key is present. -/
def dictLookup (d : SetupDict) (k : String) : Option (Option SetupVal) :=
  match d.find? (fun p => p.1 == k) with
  | some p => some p.2
  | none => none

/-- The per-row body of parse_setup.py 32-56: unrecognized parameter names
contribute nothing; an NA value stores an explicit null; otherwise the
coerced value is stored (coercion errors propagate, uncaught). -/
def setupStep (acc : SetupDict) (r : SetupRow) : Except String SetupDict :=
  let param := pyStrip (pyStr r.parameter)
  match field_map.find? (fun p => p.1 == param) with
  | none => .ok acc
  | some pf =>
      if isna r.value then .ok (dictSet acc pf.2 none)
      else
        match setupValue param r.value with
        | .ok v => .ok (dictSet acc pf.2 (some v))
        | .error e => .error e

/-- parse_setup.py `parse_setup_csv_to_inputdatasetup` (row loop). -/
def parse_setup (rows : List SetupRow) : Except String SetupDict :=
  rows.foldlM setupStep []

/-! ## Remaining entity records -/

/-- A scenario record of parse_scenarios.py 72-77. -/
structure Scenario where
  name : String
  weight : PFloat
deriving DecidableEq

/-- A NewRisk record of parse_risk.py 66-71. -/
structure RiskRec where
  parameter : String
  value : PFloat
deriving DecidableEq

/-- A NewTopology input (parse_topologies.py 119-127). -/
structure NewTopology where
  capacity : PFloat
  vomCost : PFloat
  rampUp : PFloat
  rampDown : PFloat
  initialLoad : PFloat
  initialFlow : PFloat
  capTs : List ValueInput
deriving DecidableEq

/-- A createTopology call input (parse_topologies.py 129-137). -/
structure TopoCall where
  processName : String
  sourceNodeName : Option String
  sinkNodeName : Option String
  topology : NewTopology
deriving DecidableEq

/-- A NewMarket input record (parse_markets.py 160-178). -/
structure MarketRec where
  name : String
  mType : String
  node : String
  processGroup : String
  direction : Option String
  realisation : List ValueInput
  reserveType : Option String
  isBid : Bool
  isLimited : Bool
  minBid : PFloat
  maxBid : PFloat
  fee : PFloat
  price : List ValueInput
  upPrice : List ValueInput
  downPrice : List ValueInput
  reserveActivationPrice : List ValueInput
deriving DecidableEq

/-- The dict returned by parse_groups.py: sorted deduplicated group names
plus ordered (entity, group) membership pairs. -/
structure GroupsData where
  node_groups : List String
  process_groups : List String
  node_memberships : List (String × String)
  process_memberships : List (String × String)
deriving DecidableEq

/-! ## Enrichment (main.py) -/

/-- The inflow enrichment block of main.py 109-118: when the decoded map
is non-empty, every node whose name is a key gets its `inflow` field
replaced by the map's descriptor list; other nodes (and all other
fields) are untouched. -/
def attachInflow (entries : List (String × ValueInput)) (nodes : List NewNode) :
    List NewNode :=
  if entries.isEmpty then nodes
  else nodes.map fun node =>
    if mapMem entries node.name then { node with inflow := mapEntries entries node.name }
    else node

/-! ## Dispatch (graphql_utils.py send functions, main.py 249-275) -/

/-- One mutation submission: the operation with its variable record. -/
inductive Event where
  | setup (s : SetupDict)
  | scenario (s : Scenario)
  | node (n : NewNode)
  | nodeState (i : NodeStateItem)
  | process (p : NewProcess)
  | nodeGroup (name : String)
  | processGroup (name : String)
  | nodeMembership (nodeName groupName : String)
  | processMembership (processName groupName : String)
  | topology (t : TopoCall)
  | market (m : MarketRec)
  | risk (r : RiskRec)
deriving DecidableEq

/-- graphql_utils.py `send_setup`: one createInputDataSetup call. -/
def send_setup (s : SetupDict) : List Event := [.setup s]

/-- Modelled from the spec: `send_scenarios` is imported by main.py from
graphql_utils but is absent from the provided sources; per the spec's
OrderedDispatcher contract it submits one mutation per scenario, item by
item, in parsed order. -/
def send_scenarios (l : List Scenario) : List Event := l.map .scenario

/-- graphql_utils.py `send_nodes` (144-155): one createNode per node. -/
def send_nodes (l : List NewNode) : List Event := l.map .node

/-- graphql_utils.py `send_node_states` (216-232): one setNodeState per
item, skipping falsy node names (the `state is None` skip of the source
cannot fire on parser output, whose items always carry a state dict). -/
def send_node_states (l : List NodeStateItem) : List Event :=
  l.filterMap fun it => if it.nodeName = "" then none else some (.nodeState it)

/-- graphql_utils.py `send_processes` (279-290). -/
def send_processes (l : List NewProcess) : List Event := l.map .process

/-- graphql_utils.py `send_groups` (392-431): node group creations, then
process group creations, then node memberships, then process
memberships; nothing at all when every part is empty. -/
def send_groups (g : GroupsData) : List Event :=
  if g.node_groups.isEmpty && g.process_groups.isEmpty &&
     g.node_memberships.isEmpty && g.process_memberships.isEmpty then []
  else
    g.node_groups.map .nodeGroup ++ g.process_groups.map .processGroup ++
    g.node_memberships.map (fun m => .nodeMembership m.1 m.2) ++
    g.process_memberships.map (fun m => .processMembership m.1 m.2)

/-- graphql_utils.py `send_topologies` (489-503). -/
def send_topologies (l : List TopoCall) : List Event := l.map .topology

/-- graphql_utils.py `send_markets` (557-568). -/
def send_markets (l : List MarketRec) : List Event := l.map .market

/-- graphql_utils.py `send_risks` (609-620). -/
def send_risks (l : List RiskRec) : List Event := l.map .risk

/-- The parsed collections main.py holds when the dispatch phase starts. -/
structure ParsedData where
  setup : SetupDict
  scenarios : List Scenario
  nodes : List NewNode
  nodeStates : List NodeStateItem
  processes : List NewProcess
  groups : GroupsData
  topologies : List TopoCall
  markets : List MarketRec
  risks : List RiskRec

/-- The dispatch phase of main.py 249-275 (the `SEND_TO_SERVER` branch):
the full ordered submission trace. -/
def dispatchPhase (d : ParsedData) : List Event :=
  send_setup d.setup ++ send_scenarios d.scenarios ++ send_nodes d.nodes ++
  send_node_states d.nodeStates ++ send_processes d.processes ++
  send_groups d.groups ++ send_topologies d.topologies ++
  send_markets d.markets ++ send_risks d.risks

/-- A GraphQL endpoint response body: JSON (with its possibly empty error
list) or non-JSON text. -/
inductive RespBody where
  | json (errors : List String)
  | nonJson (text : String)
deriving DecidableEq

/-- An HTTP response to one submission. -/
structure HttpResponse where
  statusCode : Nat
  body : RespBody
deriving DecidableEq

/-- What graphql_utils.py `send_graphql_payload` returns. -/
inductive SendResult where
  | data (errors : List String)
  | raw (text : String) (statusCode : Nat)
deriving DecidableEq

/-- graphql_utils.py `send_graphql_payload` (24-54), given the response
the endpoint produced: total — a JSON body is returned parsed whatever
its error list, a non-JSON body is returned verbatim with the status;
neither the status code nor the error list affects control flow. -/
def send_graphql_payload (resp : HttpResponse) : SendResult :=
  match resp.body with
  | .json errs => .data errs
  | .nonJson t => .raw t resp.statusCode

/-- A failed item in the sense of the spec: non-2xx status, or a JSON
body with a non-empty error list. -/
def isFailure (resp : HttpResponse) : Bool :=
  decide (¬ (200 ≤ resp.statusCode ∧ resp.statusCode < 300)) ||
  (match resp.body with
   | .json errs => !errs.isEmpty
   | .nonJson _ => false)

/-- One send loop (the shared shape of every `send_*` function): submit
each event in order; `responses k` is the response to the `k`-th request
of the run.  The loop never branches on the result. -/
def sendLoop (responses : Nat → HttpResponse) (k : Nat) :
    List Event → List (Event × SendResult)
  | [] => []
  | e :: rest => (e, send_graphql_payload (responses k)) :: sendLoop responses (k + 1) rest

/-- Run one dispatch stage after `acc.2` earlier requests, extending the
accumulated trace. -/
def stageTraced (responses : Nat → HttpResponse)
    (acc : List (Event × SendResult) × Nat) (events : List Event) :
    List (Event × SendResult) × Nat :=
  (acc.1 ++ sendLoop responses acc.2 events, acc.2 + events.length)

/-- The dispatch phase of main.py with the per-item responses recorded:
the nine stages run in sequence, each item-by-item. -/
def dispatchTraced (responses : Nat → HttpResponse) (d : ParsedData) :
    List (Event × SendResult) :=
  ([send_setup d.setup, send_scenarios d.scenarios, send_nodes d.nodes,
    send_node_states d.nodeStates, send_processes d.processes,
    send_groups d.groups, send_topologies d.topologies,
    send_markets d.markets, send_risks d.risks].foldl
      (stageTraced responses) ([], 0)).1

/-! ## Persistence (graphql_utils.py save functions) -/

/-- What one persisted file holds: a single envelope or a combined list. -/
inductive FileContent where
  | single (e : Event)
  | combined (es : List Event)
deriving DecidableEq

/-- The filename sanitizer used by every per-item saver: keep only
alphanumerics, underscore, hyphen and space; strip; substitute the
fallback when empty; replace spaces with underscores. -/
def sanitize (name fallback : String) : String :=
  let safe := String.mk (name.toList.filter fun c =>
    c.isAlphanum || c = '_' || c = '-' || c = ' ')
  let safe := pyStrip safe
  let safe := if safe = "" then fallback else safe
  String.mk (safe.toList.map fun c => if c = ' ' then '_' else c)

/-- graphql_utils.py `save_node_payloads_to_files` (120-141): one file per
node plus the combined file (written even for an empty list). -/
def save_node_payloads (nodes : List NewNode) : List (String × FileContent) :=
  (nodes.map fun n =>
    ("node_" ++ sanitize n.name "node" ++ ".json", FileContent.single (.node n)))
  ++ [("nodes_all.json", .combined (nodes.map .node))]

/-- graphql_utils.py `save_node_state_payloads_to_files` (184-213). -/
def save_node_state_payloads (l : List NodeStateItem) : List (String × FileContent) :=
  (l.map fun it =>
    ("node_state_" ++ sanitize it.nodeName "node" ++ ".json",
     FileContent.single (.nodeState it)))
  ++ [("node_states_all.json", .combined (l.map .nodeState))]

/-- graphql_utils.py `save_process_payloads_to_files` (252-276). -/
def save_process_payloads (l : List NewProcess) : List (String × FileContent) :=
  (l.map fun p =>
    ("process_" ++ sanitize p.name "process" ++ ".json", FileContent.single (.process p)))
  ++ [("processes_all.json", .combined (l.map .process))]

/-- graphql_utils.py `save_market_payloads_to_files` (527-554): early
return on an empty list, else one file per market plus the combined file. -/
def save_market_payloads (l : List MarketRec) : List (String × FileContent) :=
  if l.isEmpty then []
  else
    (l.map fun m =>
      ("market_" ++ sanitize m.name "market" ++ ".json", FileContent.single (.market m)))
    ++ [("markets_all.json", .combined (l.map .market))]

/-- graphql_utils.py `save_topology_payloads_to_files` (475-486): ONLY the
combined file is written — there is no per-item topology file. -/
def save_topology_payloads (l : List TopoCall) : List (String × FileContent) :=
  if l.isEmpty then []
  else [("topologies_all.json", .combined (l.map .topology))]

/-- graphql_utils.py `save_risk_payloads_to_files` (591-606): ONLY the
combined file is written — there is no per-item risk file. -/
def save_risk_payloads (l : List RiskRec) : List (String × FileContent) :=
  if l.isEmpty then []
  else [("risks_all.json", .combined (l.map .risk))]

/-- graphql_utils.py `save_group_payloads_to_files` (345-389): per-item
plus combined files for the group creations, combined-only files for the
memberships. -/
def save_group_payloads (g : GroupsData) : List (String × FileContent) :=
  (g.node_groups.map fun n =>
    ("node_group_" ++ sanitize n "node_group" ++ ".json", FileContent.single (.nodeGroup n)))
  ++ (if g.node_groups.isEmpty then []
      else [("node_groups_all.json", FileContent.combined (g.node_groups.map .nodeGroup))])
  ++ (g.process_groups.map fun n =>
    ("process_group_" ++ sanitize n "process_group" ++ ".json",
     FileContent.single (.processGroup n)))
  ++ (if g.process_groups.isEmpty then []
      else [("process_groups_all.json",
             FileContent.combined (g.process_groups.map .processGroup))])
  ++ (if g.node_memberships.isEmpty then []
      else [("node_group_memberships_all.json",
             FileContent.combined (g.node_memberships.map fun m => .nodeMembership m.1 m.2))])
  ++ (if g.process_memberships.isEmpty then []
      else [("process_group_memberships_all.json",
             FileContent.combined
               (g.process_memberships.map fun m => .processMembership m.1 m.2))])

/-! ## Helper lemmas -/

theorem dictLookup_setAll (d : SetupDict) (k : String) (v : Option SetupVal)
    (h : d.any (fun p => p.1 == k) = true) :
    (d.map (fun p => if p.1 == k then (k, v) else p)).find? (fun p => p.1 == k) =
      some (k, v) := by
  induction d with
  | nil => simp at h
  | cons p d ih =>
      cases hpk : (p.1 == k) with
      | true =>
          rw [List.map_cons, if_pos hpk, List.find?_cons_of_pos _ (by simp)]
      | false =>
          have h' : d.any (fun p => p.1 == k) = true := by
            rw [List.any_cons, hpk, Bool.false_or] at h
            exact h
          rw [List.map_cons, if_neg (by simp [hpk]),
              List.find?_cons_of_neg _ (by simp [hpk])]
          exact ih h'

theorem dictLookup_appendOne (d : SetupDict) (k : String) (v : Option SetupVal)
    (h : d.any (fun p => p.1 == k) = false) :
    (d ++ [(k, v)]).find? (fun p => p.1 == k) = some (k, v) := by
  induction d with
  | nil => simp [List.find?]
  | cons p d ih =>
      have hpk : (p.1 == k) = false := by
        cases hb : (p.1 == k) with
        | false => rfl
        | true =>
            rw [List.any_cons, hb, Bool.true_or] at h
            exact absurd h (by simp)
      have hd : d.any (fun p => p.1 == k) = false := by
        rw [List.any_cons, hpk, Bool.false_or] at h
        exact h
      rw [List.cons_append, List.find?_cons_of_neg _ (by simp [hpk])]
      exact ih hd

theorem dictLookup_dictSet (d : SetupDict) (k : String) (v : Option SetupVal) :
    dictLookup (dictSet d k v) k = some v := by
  unfold dictSet dictLookup
  by_cases h : d.any (fun p => p.1 == k) = true
  · rw [if_pos h, dictLookup_setAll d k v h]
  · rw [if_neg h, dictLookup_appendOne d k v (Bool.eq_false_iff.mpr h)]

theorem send_node_states_eq_map (l : List NodeStateItem)
    (h : ∀ it ∈ l, it.nodeName ≠ "") : send_node_states l = l.map .nodeState := by
  induction l with
  | nil => rfl
  | cons it l ih =>
      have h1 : it.nodeName ≠ "" := h it (by simp)
      have h2 : ∀ x ∈ l, x.nodeName ≠ "" := fun x hx => h x (by simp [hx])
      simp only [send_node_states, List.filterMap_cons, if_neg h1, List.map_cons]
      exact congrArg _ (ih h2)

theorem send_groups_eq (g : GroupsData) :
    send_groups g =
      g.node_groups.map .nodeGroup ++ g.process_groups.map .processGroup ++
      g.node_memberships.map (fun m => .nodeMembership m.1 m.2) ++
      g.process_memberships.map (fun m => .processMembership m.1 m.2) := by
  unfold send_groups
  split
  · next hall =>
      have h1 := hall
      simp only [Bool.and_eq_true, List.isEmpty_iff] at h1
      rw [h1.1.1.1, h1.1.1.2, h1.1.2, h1.2]
      simp
  · rfl

theorem sendLoop_map_fst (responses : Nat → HttpResponse) (k : Nat)
    (l : List Event) : (sendLoop responses k l).map Prod.fst = l := by
  induction l generalizing k with
  | nil => rfl
  | cons e rest ih => simp [sendLoop, ih]

theorem foldl_stageTraced_map_fst (responses : Nat → HttpResponse)
    (stages : List (List Event)) :
    ∀ acc : List (Event × SendResult) × Nat,
      ((stages.foldl (stageTraced responses) acc).1).map Prod.fst =
        acc.1.map Prod.fst ++ stages.flatten := by
  induction stages with
  | nil => intro acc; simp
  | cons s ss ih =>
      intro acc
      simp only [List.foldl_cons, List.flatten_cons]
      rw [ih]
      simp [stageTraced, sendLoop_map_fst, List.append_assoc]

theorem digit_facts (c : Char) (h : c.isDigit = true) :
    c ≠ '-' ∧ c ≠ '+' ∧ c ≠ '.' ∧ c ≠ 'e' ∧ c ≠ 'E' ∧ c ≠ ',' := by
  refine ⟨?_, ?_, ?_, ?_, ?_, ?_⟩ <;>
    (intro he; rw [he] at h; exact absurd h (by decide))

theorem not_ws_of_digit (c : Char) (h : c.isDigit = true) :
    c.isWhitespace = false := by
  by_contra hw
  rw [Bool.not_eq_false] at hw
  simp only [Char.isWhitespace, Bool.or_eq_true, decide_eq_true_eq] at hw
  rcases hw with ((h1 | h1) | h1) | h1 <;> (rw [h1] at h; exact absurd h (by decide))

theorem dropWhile_eq_self_of_all_false (p : Char → Bool) (cs : List Char)
    (h : ∀ c ∈ cs, p c = false) : cs.dropWhile p = cs := by
  cases cs with
  | nil => rfl
  | cons a l => simp [List.dropWhile_cons, h a (by simp)]

theorem trimChars_eq_self (cs : List Char)
    (h : ∀ c ∈ cs, c.isWhitespace = false) : trimChars cs = cs := by
  unfold trimChars
  rw [dropWhile_eq_self_of_all_false _ cs h,
      dropWhile_eq_self_of_all_false _ cs.reverse
        (fun c hc => h c (List.mem_reverse.mp hc)),
      List.reverse_reverse]

theorem takeWhile_digit_append (pre rest : List Char)
    (hpre : ∀ c ∈ pre, c.isDigit = true)
    (hrest : ∀ c, rest.head? = some c → c.isDigit = false) :
    (pre ++ rest).takeWhile Char.isDigit = pre ∧
    (pre ++ rest).dropWhile Char.isDigit = rest := by
  induction pre with
  | nil =>
      cases rest with
      | nil => exact ⟨rfl, rfl⟩
      | cons a l =>
          have ha : a.isDigit = false := hrest a rfl
          constructor <;> simp [List.takeWhile_cons, List.dropWhile_cons, ha]
  | cons a pre ih =>
      have ha : a.isDigit = true := hpre a (by simp)
      obtain ⟨ht, hd⟩ := ih (fun c hc => hpre c (by simp [hc]))
      constructor
      · simp [List.takeWhile_cons, ha, ht]
      · simp [List.dropWhile_cons, ha, hd]

theorem commaToDot_of_digits (l : List Char) (h : ∀ c ∈ l, c.isDigit = true) :
    commaToDot l = l := by
  induction l with
  | nil => rfl
  | cons a l ih =>
      have ha := (digit_facts a (h a (by simp))).2.2.2.2.2
      simp only [commaToDot, List.map_cons, if_neg ha]
      exact congrArg _ (ih (fun c hc => h c (by simp [hc])))

theorem stringMk_ne_empty (cs : List Char) (h : cs ≠ []) : String.mk cs ≠ "" :=
  fun he => h (congrArg String.data he)

theorem pyFloat_dot_eval (pre post : List Char)
    (hpre : ∀ c ∈ pre, c.isDigit = true) (hpost : ∀ c ∈ post, c.isDigit = true)
    (hpre0 : pre ≠ []) :
    pyFloatOfChars (pre ++ '.' :: post) = some (qOfParts false pre post 0) := by
  obtain ⟨a, pre', rfl⟩ := List.exists_cons_of_ne_nil hpre0
  have ha : a.isDigit = true := hpre a (by simp)
  have hfa := digit_facts a ha
  have htrim : trimChars ((a :: pre') ++ '.' :: post) = (a :: pre') ++ '.' :: post := by
    refine trimChars_eq_self _ (fun c hc => ?_)
    rcases List.mem_append.mp (show c ∈ (a :: pre') ++ '.' :: post from hc) with hc | hc
    · exact not_ws_of_digit c (hpre c hc)
    · rcases List.mem_cons.mp hc with rfl | hc
      · decide
      · exact not_ws_of_digit c (hpost c hc)
  have htd := takeWhile_digit_append (a :: pre') ('.' :: post) hpre
    (fun c hc => by cases hc; decide)
  have htp := takeWhile_digit_append post [] hpost (fun c hc => by cases hc)
  have hsgn : ¬(((a :: pre') ++ '.' :: post).head? = some '-' ∨
      ((a :: pre') ++ '.' :: post).head? = some '+') := by
    simp only [List.cons_append, List.head?_cons, Option.some.injEq]
    rintro (h | h)
    · exact hfa.1 h
    · exact hfa.2.1 h
  have hneg : (((a :: pre') ++ '.' :: post).head? == some '-') = false := by
    rw [List.cons_append, List.head?_cons]
    exact beq_eq_false_iff_ne.mpr (fun h => hfa.1 (Option.some.inj h))
  simp only [pyFloatOfChars, htrim]
  rw [if_neg hsgn, htd.1, htd.2]
  have htp1 : List.takeWhile Char.isDigit post = post := by simpa using htp.1
  have htp2 : List.dropWhile Char.isDigit post = [] := by simpa using htp.2
  simp [htp1, htp2, hneg]
  rw [beq_eq_false_iff_ne.mpr hfa.1]
theorem pyFloat_comma_none (pre post : List Char)
    (hpre : ∀ c ∈ pre, c.isDigit = true) (hpost : ∀ c ∈ post, c.isDigit = true)
    (hpre0 : pre ≠ []) :
    pyFloatOfChars (pre ++ ',' :: post) = none := by
  obtain ⟨a, pre', rfl⟩ := List.exists_cons_of_ne_nil hpre0
  have ha : a.isDigit = true := hpre a (by simp)
  have hfa := digit_facts a ha
  have htrim : trimChars ((a :: pre') ++ ',' :: post) = (a :: pre') ++ ',' :: post := by
    refine trimChars_eq_self _ (fun c hc => ?_)
    rcases List.mem_append.mp (show c ∈ (a :: pre') ++ ',' :: post from hc) with hc | hc
    · exact not_ws_of_digit c (hpre c hc)
    · rcases List.mem_cons.mp hc with rfl | hc
      · decide
      · exact not_ws_of_digit c (hpost c hc)
  have htd := takeWhile_digit_append (a :: pre') (',' :: post) hpre
    (fun c hc => by cases hc; decide)
  have hsgn : ¬(((a :: pre') ++ ',' :: post).head? = some '-' ∨
      ((a :: pre') ++ ',' :: post).head? = some '+') := by
    simp only [List.cons_append, List.head?_cons, Option.some.injEq]
    rintro (h | h)
    · exact hfa.1 h
    · exact hfa.2.1 h
  simp only [pyFloatOfChars, htrim]
  rw [if_neg hsgn, htd.1, htd.2]
  simp

theorem dedup_length_one_iff (v : Rat) (vs : List Rat) :
    ((v :: vs).dedup.length = 1) ↔ ∀ x ∈ vs, x = v := by
  constructor
  · intro h
    obtain ⟨a, ha⟩ := List.length_eq_one.mp h
    intro x hx
    have hxa : x = a := by
      have : x ∈ (v :: vs).dedup := List.mem_dedup.mpr (by simp [hx])
      rw [ha] at this
      simpa using this
    have hva : v = a := by
      have : v ∈ (v :: vs).dedup := List.mem_dedup.mpr (by simp)
      rw [ha] at this
      simpa using this
    rw [hxa, hva]
  · intro h
    have : (v :: vs).dedup = [v] := by
      induction vs with
      | nil => simp
      | cons w ws ih =>
          have hw : w = v := h w (by simp)
          have hmem : v ∈ w :: ws := by simp [hw]
          rw [List.dedup_cons_of_mem hmem]
          subst hw
          exact ih (fun x hx => h x (by simp [hx]))
    rw [this]
    rfl

/-! ## Claim C1 -/

/-- C1: every `conversion` cell value (pandas cells are never the Python
`None` object) whose normalized string is not a recognized code/synonym
makes `_map_conversion` raise — no default is substituted — and every
recognized value yields the corresponding enum constant; the error
aborts the process row parse. -/
theorem spec2proof_C1 (raw : Cell) (hc : raw ≠ Cell.pynone) :
    (pyLower (pyStrip (pyStr raw)) ∉
        ["1", "unit", "u", "2", "transfer", "t", "3", "market", "m"] →
      ∃ msg, map_conversion raw = .error msg) ∧
    (pyLower (pyStrip (pyStr raw)) ∈ ["1", "unit", "u"] →
      map_conversion raw = .ok "UNIT") ∧
    (pyLower (pyStrip (pyStr raw)) ∈ ["2", "transfer", "t"] →
      map_conversion raw = .ok "TRANSFER") ∧
    (pyLower (pyStrip (pyStr raw)) ∈ ["3", "market", "m"] →
      map_conversion raw = .ok "MARKET") ∧
    (∀ row : Row, Row.get row "conversion" = raw →
      pyStrip (pyStr (Row.get row "process")) ≠ "" →
      ∀ msg, map_conversion raw = .error msg → processRow row = .error msg) := by
  have hbody : map_conversion raw =
      (let s := pyLower (pyStrip (pyStr raw))
       if s ∈ ["1", "unit", "u"] then .ok "UNIT"
       else if s ∈ ["2", "transfer", "t"] then .ok "TRANSFER"
       else if s ∈ ["3", "market", "m"] then .ok "MARKET"
       else .error ("Unsupported conversion value " ++ s ++
         " in processes.csv; expected 1/2/3 or Unit/Transfer/Market")) := by
    cases raw with
    | pynone => exact absurd rfl hc
    | nan => rfl
    | str s => rfl
    | int n => rfl
    | float q => rfl
  have h21 : ∀ a ∈ (["2", "transfer", "t"] : List String),
      a ∉ (["1", "unit", "u"] : List String) := by decide
  have h31 : ∀ a ∈ (["3", "market", "m"] : List String),
      a ∉ (["1", "unit", "u"] : List String) := by decide
  have h32 : ∀ a ∈ (["3", "market", "m"] : List String),
      a ∉ (["2", "transfer", "t"] : List String) := by decide
  have hsplit : ∀ a : String,
      a ∈ (["1", "unit", "u", "2", "transfer", "t", "3", "market", "m"] : List String) ↔
      (a ∈ (["1", "unit", "u"] : List String) ∨
       a ∈ (["2", "transfer", "t"] : List String) ∨
       a ∈ (["3", "market", "m"] : List String)) := by
    intro a
    simp only [List.mem_cons, List.not_mem_nil, or_false]
    tauto
  refine ⟨?_, ?_, ?_, ?_, ?_⟩
  · intro hnot
    rw [hbody]
    rw [hsplit] at hnot
    push_neg at hnot
    rw [if_neg hnot.1, if_neg hnot.2.1, if_neg hnot.2.2]
    exact ⟨_, rfl⟩
  · intro hmem
    rw [hbody]
    rw [if_pos hmem]
  · intro hmem
    rw [hbody]
    rw [if_neg (h21 _ hmem), if_pos hmem]
  · intro hmem
    rw [hbody]
    rw [if_neg (h31 _ hmem), if_neg (h32 _ hmem), if_pos hmem]
  · intro row hconv hname msg herr
    unfold processRow
    rw [if_neg hname, hconv, herr]

/-- C1 witness: `"fusion"` is unrecognized and raises; `"Unit"` maps to
UNIT. -/
theorem spec2proof_C1_witness :
    (∃ msg, map_conversion (Cell.str "fusion") = .error msg) ∧
    map_conversion (Cell.str "Unit") = .ok "UNIT" :=
  ⟨(spec2proof_C1 (Cell.str "fusion") (by simp)).1 (by decide),
   (spec2proof_C1 (Cell.str "Unit") (by simp)).2.1 (by decide)⟩

/-! ## Claim C2 -/

/-- C2 counterexample: on a nodes sheet with no `is_state` column at all,
a state record is emitted for the named row even though the row's
`is_state` cell (absent, i.e. `None`) coerces to false — refuting
"emitted only for rows whose `is_state` cell coerces to true". -/
theorem spec2proof_C2_counterexample :
    parse_node_states ⟨["node"], [[("node", Cell.str "n1")]]⟩ =
      .ok [⟨"n1", defaultState⟩] ∧
    to_bool (Row.get [("node", Cell.str "n1")] "is_state") = false :=
  ⟨rfl, by decide⟩

/-- C2 (amended): when the nodes sheet has an `is_state` column, a state
record is emitted exactly for the named rows whose `is_state` cell
coerces to true; when the sheet lacks that column, a state record is
emitted for every named row.  Every emitted state keeps, for each state
column absent from the sheet, the defaults: 0.0 for the numeric fields,
`isScenarioIndependent = true`, `tEConversion = 1.0`. -/
theorem spec2proof_C2_amended (sheet : CsvSheet) (hn : "node" ∈ sheet.cols)
    (row : Row) (hname : pyStrip (pyStr (Row.get row "node")) ≠ "") :
    parse_node_states sheet = .ok (sheet.rows.filterMap (stateForRow sheet.cols)) ∧
    ("is_state" ∈ sheet.cols →
      stateForRow sheet.cols row =
        (if to_bool (Row.get row "is_state") then
          some ⟨pyStrip (pyStr (Row.get row "node")), buildState sheet.cols row⟩
         else none)) ∧
    ("is_state" ∉ sheet.cols →
      stateForRow sheet.cols row =
        some ⟨pyStrip (pyStr (Row.get row "node")), buildState sheet.cols row⟩) ∧
    ("in_max" ∉ sheet.cols → (buildState sheet.cols row).inMax = .fin 0) ∧
    ("out_max" ∉ sheet.cols → (buildState sheet.cols row).outMax = .fin 0) ∧
    ("state_loss_proportional" ∉ sheet.cols →
      (buildState sheet.cols row).stateLossProportional = .fin 0) ∧
    ("state_min" ∉ sheet.cols → (buildState sheet.cols row).stateMin = .fin 0) ∧
    ("state_max" ∉ sheet.cols → (buildState sheet.cols row).stateMax = .fin 0) ∧
    ("initial_state" ∉ sheet.cols → (buildState sheet.cols row).initialState = .fin 0) ∧
    ("scenario_independent_state" ∉ sheet.cols →
      (buildState sheet.cols row).isScenarioIndependent = true) ∧
    ("is_temp" ∉ sheet.cols → (buildState sheet.cols row).isTemp = false) ∧
    ("t_e_conversion" ∉ sheet.cols → (buildState sheet.cols row).tEConversion = .fin 1) ∧
    ("residual_value" ∉ sheet.cols → (buildState sheet.cols row).residualValue = .fin 0) := by
  refine ⟨by unfold parse_node_states; rw [if_pos hn], ?_, ?_, ?_, ?_, ?_, ?_, ?_, ?_, ?_, ?_, ?_, ?_⟩
  · intro hmem
    unfold stateForRow
    rw [if_neg hname]
    by_cases hb : to_bool (Row.get row "is_state")
    · rw [if_pos hb, if_neg (by simp [hb])]
    · rw [if_neg hb, if_pos ⟨hmem, by simpa using hb⟩]
  · intro hmem
    unfold stateForRow
    rw [if_neg hname, if_neg (by tauto)]
  all_goals intro hmem
  all_goals simp only [buildState]
  all_goals rw [if_neg hmem]

/-- C2 witness: a sheet with an `is_state` column emits a state for the
true row. -/
theorem spec2proof_C2_witness :
    parse_node_states ⟨["node", "is_state"], [[("node", Cell.str "n1"), ("is_state", Cell.str "1")]]⟩ =
      .ok ([[("node", Cell.str "n1"), ("is_state", Cell.str "1")]].filterMap
            (stateForRow ["node", "is_state"])) ∧
    stateForRow ["node", "is_state"] [("node", Cell.str "n1"), ("is_state", Cell.str "1")] =
      (if to_bool (Row.get [("node", Cell.str "n1"), ("is_state", Cell.str "1")] "is_state") then
        some ⟨pyStrip (pyStr (Row.get [("node", Cell.str "n1"), ("is_state", Cell.str "1")] "node")),
              buildState ["node", "is_state"] [("node", Cell.str "n1"), ("is_state", Cell.str "1")]⟩
       else none) :=
  ⟨(spec2proof_C2_amended ⟨["node", "is_state"], [[("node", Cell.str "n1"), ("is_state", Cell.str "1")]]⟩
      (by decide) [("node", Cell.str "n1"), ("is_state", Cell.str "1")] (by decide)).1,
   (spec2proof_C2_amended ⟨["node", "is_state"], [[("node", Cell.str "n1"), ("is_state", Cell.str "1")]]⟩
      (by decide) [("node", Cell.str "n1"), ("is_state", Cell.str "1")] (by decide)).2.1 (by decide)⟩

/-! ## Claim C3 -/

/-- C3: for any wide-series column handled by a decoder column step (the
shared loop body of parse_inflow/parse_cf/parse_node_price/
parse_market_prices, generic in the file's `_to_float_list`): a column
with zero decodable values contributes no `(entity, descriptor)` entry;
a produced descriptor is a `Constant` of the common value when all
decoded values are numerically equal, and otherwise a `Series` of all
decoded values in input row order — in particular no produced
descriptor holds an empty series. -/
theorem spec2proof_C3 (toList : List Cell → List Rat) (col : String)
    (cells : List Cell) :
    (toList cells = [] → decodeColumn toList col cells = none) ∧
    (∀ name vi, decodeColumn toList col cells = some (name, vi) →
      ∃ v vs, toList cells = v :: vs ∧
        ((∀ x ∈ vs, x = v) → vi.rep = .constant v) ∧
        ((¬ ∀ x ∈ vs, x = v) → vi.rep = .series (v :: vs)) ∧
        vi.rep ≠ .series []) := by
  constructor
  · intro h
    unfold decodeColumn
    cases hk : columnKey col with
    | none => rfl
    | some pair => rw [h]
  · intro name vi hsome
    unfold decodeColumn at hsome
    split at hsome
    · exact absurd hsome (by simp)
    · split at hsome
      · exact absurd hsome (by simp)
      · next v vs heq =>
          split at hsome
          · next hded =>
              cases hsome
              exact ⟨v, vs, heq, fun _ => rfl,
                fun hne => absurd ((dedup_length_one_iff v vs).mp hded) hne,
                by simp⟩
          · next hded =>
              cases hsome
              exact ⟨v, vs, heq,
                fun hall => absurd ((dedup_length_one_iff v vs).mpr hall) hded,
                fun _ => rfl, by simp⟩

/-- C3 witness: an all-NA column yields no entry; a column of `"1"` and
`"1.0"` collapses to a `Constant 1`. -/
theorem spec2proof_C3_witness :
    decodeColumn to_float_list_cf "p1,ALL" [Cell.nan, Cell.pynone] = none ∧
    (∃ v vs, to_float_list_cf [Cell.str "1", Cell.str "1.0"] = v :: vs ∧
      ((∀ x ∈ vs, x = v) →
        (⟨none, .constant 1⟩ : ValueInput).rep = .constant v) ∧
      ((¬ ∀ x ∈ vs, x = v) →
        (⟨none, .constant 1⟩ : ValueInput).rep = .series (v :: vs)) ∧
      (⟨none, .constant 1⟩ : ValueInput).rep ≠ .series []) :=
  ⟨(spec2proof_C3 to_float_list_cf "p1,ALL" [Cell.nan, Cell.pynone]).1 rfl,
   (spec2proof_C3 to_float_list_cf "p1,ALL" [Cell.str "1", Cell.str "1.0"]).2
     "p1" ⟨none, .constant 1⟩ (by rfl)⟩

/-! ## Claim C4 -/

/-- C4: with dispatch enabled, the submission trace of main.py is exactly
Setup, then Scenarios, Nodes, Node States, Processes, node-group then
process-group creations, node then process group memberships,
Topologies, Markets, Risks — each stage item by item in parsed order,
complete before the next stage starts.  (The node-state name hypothesis
holds for all parser output; the Scenarios stage sender is modelled from
the spec, see `send_scenarios`.) -/
theorem spec2proof_C4 (d : ParsedData)
    (h : ∀ it ∈ d.nodeStates, it.nodeName ≠ "") :
    dispatchPhase d =
      [Event.setup d.setup] ++ d.scenarios.map .scenario ++ d.nodes.map .node ++
      d.nodeStates.map .nodeState ++ d.processes.map .process ++
      d.groups.node_groups.map .nodeGroup ++
      d.groups.process_groups.map .processGroup ++
      d.groups.node_memberships.map (fun m => .nodeMembership m.1 m.2) ++
      d.groups.process_memberships.map (fun m => .processMembership m.1 m.2) ++
      d.topologies.map .topology ++ d.markets.map .market ++
      d.risks.map .risk := by
  unfold dispatchPhase send_setup send_scenarios send_nodes send_processes
    send_topologies send_markets send_risks
  rw [send_node_states_eq_map _ h, send_groups_eq]
  simp [List.append_assoc]

/-- C4 witness: a one-item-per-stage run dispatches in the required
order. -/
theorem spec2proof_C4_witness :
    dispatchPhase
      { setup := [("useReserves", some (.b true))],
        scenarios := [⟨"s1", .fin 1⟩],
        nodes := [⟨"n1", false, false, false, [], []⟩],
        nodeStates := [⟨"n1", defaultState⟩],
        processes := [],
        groups := ⟨["g1"], [], [("n1", "g1")], []⟩,
        topologies := [], markets := [], risks := [⟨"alfa", .fin 1⟩] } =
      [Event.setup [("useReserves", some (.b true))]] ++
      [Scenario.mk "s1" (.fin 1)].map .scenario ++
      [NewNode.mk "n1" false false false [] []].map .node ++
      [NodeStateItem.mk "n1" defaultState].map .nodeState ++
      ([] : List NewProcess).map .process ++
      ["g1"].map .nodeGroup ++
      ([] : List String).map .processGroup ++
      [("n1", "g1")].map (fun m => Event.nodeMembership m.1 m.2) ++
      ([] : List (String × String)).map (fun m => Event.processMembership m.1 m.2) ++
      ([] : List TopoCall).map .topology ++
      ([] : List MarketRec).map .market ++
      [RiskRec.mk "alfa" (.fin 1)].map .risk :=
  spec2proof_C4
    { setup := [("useReserves", some (.b true))],
      scenarios := [⟨"s1", .fin 1⟩],
      nodes := [⟨"n1", false, false, false, [], []⟩],
      nodeStates := [⟨"n1", defaultState⟩],
      processes := [],
      groups := ⟨["g1"], [], [("n1", "g1")], []⟩,
      topologies := [], markets := [], risks := [⟨"alfa", .fin 1⟩] }
    (by decide)

/-! ## Claim C5 -/

/-- C5 counterexample: the cf decoder's coercion drops the decimal-comma
string `"53,02752"` entirely and the topology/nodes/processes parsers'
`_to_float` substitutes the default for it, while the comma-normalizing
helpers coerce it to 53.02752 — refuting "every entity parser and every
wide-series decoder" treats comma and point decimals identically. -/
theorem spec2proof_C5_counterexample :
    to_float_list_cf [Cell.str "53,02752"] = [] ∧
    to_float (Cell.str "53,02752") (.fin 0) = .fin 0 ∧
    pyFloatOfString "53.02752" = some (qMake 5302752 100000) ∧
    to_float_list_comma [Cell.str "53,02752"] = [qMake 5302752 100000] ∧
    to_float_comma (Cell.str "53,02752") (.fin 0) = .fin (qMake 5302752 100000) :=
  ⟨by decide, by decide, by decide, by decide, by decide⟩

/-- C5 (amended): for every decimal-comma numeral, the comma-normalizing
float coercion (parse_markets/risk/scenarios `_to_float`) and the
comma-normalizing list coercion (parse_inflow/node_price/market_prices
`_to_float_list`) yield exactly the float of the equivalent
decimal-point string; but the cf decoder's list coercion drops the value
entirely, and the nodes/processes/topologies `_to_float` silently
substitutes the caller's default. -/
theorem spec2proof_C5_amended (pre post : List Char) (d : PFloat)
    (hpre : ∀ c ∈ pre, c.isDigit = true) (hpost : ∀ c ∈ post, c.isDigit = true)
    (hpre0 : pre ≠ []) :
    ∃ q : Rat,
      pyFloatOfString (String.mk (pre ++ '.' :: post)) = some q ∧
      to_float (Cell.str (String.mk (pre ++ '.' :: post))) d = .fin q ∧
      to_float_comma (Cell.str (String.mk (pre ++ ',' :: post))) d = .fin q ∧
      to_float_comma (Cell.str (String.mk (pre ++ '.' :: post))) d = .fin q ∧
      to_float_list_comma [Cell.str (String.mk (pre ++ ',' :: post))] = [q] ∧
      to_float (Cell.str (String.mk (pre ++ ',' :: post))) d = d ∧
      to_float_list_cf [Cell.str (String.mk (pre ++ ',' :: post))] = [] := by
  have hq := pyFloat_dot_eval pre post hpre hpost hpre0
  have hn := pyFloat_comma_none pre post hpre hpost hpre0
  have hne_dot : pre ++ '.' :: post ≠ [] := by
    intro h
    have := congrArg List.length h
    simp at this
  have hne_com : pre ++ ',' :: post ≠ [] := by
    intro h
    have := congrArg List.length h
    simp at this
  have hnwsd : ∀ c ∈ pre ++ '.' :: post, c.isWhitespace = false := by
    intro c hc
    rcases List.mem_append.mp hc with hc | hc
    · exact not_ws_of_digit c (hpre c hc)
    · rcases List.mem_cons.mp hc with rfl | hc
      · decide
      · exact not_ws_of_digit c (hpost c hc)
  have hnwsc : ∀ c ∈ pre ++ ',' :: post, c.isWhitespace = false := by
    intro c hc
    rcases List.mem_append.mp hc with hc | hc
    · exact not_ws_of_digit c (hpre c hc)
    · rcases List.mem_cons.mp hc with rfl | hc
      · decide
      · exact not_ws_of_digit c (hpost c hc)
  have htrd : trimChars (pre ++ '.' :: post) = pre ++ '.' :: post :=
    trimChars_eq_self _ hnwsd
  have htrc : trimChars (pre ++ ',' :: post) = pre ++ ',' :: post :=
    trimChars_eq_self _ hnwsc
  have hstr_d : pyStrip (String.mk (pre ++ '.' :: post)) = String.mk (pre ++ '.' :: post) :=
    congrArg String.mk htrd
  have hstr_c : pyStrip (String.mk (pre ++ ',' :: post)) = String.mk (pre ++ ',' :: post) :=
    congrArg String.mk htrc
  have hpyd : pyFloat (Cell.str (String.mk (pre ++ '.' :: post))) =
      some (.fin (qOfParts false pre post 0)) := by
    show (pyFloatOfChars (pre ++ '.' :: post)).map PFloat.fin = _
    rw [hq]
    rfl
  have hpyc : pyFloat (Cell.str (String.mk (pre ++ ',' :: post))) = none := by
    show (pyFloatOfChars (pre ++ ',' :: post)).map PFloat.fin = none
    rw [hn]
    rfl
  have hmapc : commaToDot (pre ++ ',' :: post) = pre ++ '.' :: post := by
    rw [show commaToDot (pre ++ ',' :: post) =
        commaToDot pre ++ commaToDot (',' :: post) from List.map_append _ _ _,
      commaToDot_of_digits pre hpre]
    have h2 : commaToDot (',' :: post) = '.' :: post := by
      simp only [commaToDot, List.map_cons, if_pos rfl]
      exact congrArg _ (commaToDot_of_digits post hpost)
    rw [h2]
  have hmapd : commaToDot (pre ++ '.' :: post) = pre ++ '.' :: post := by
    rw [show commaToDot (pre ++ '.' :: post) =
        commaToDot pre ++ commaToDot ('.' :: post) from List.map_append _ _ _,
      commaToDot_of_digits pre hpre]
    have h2 : commaToDot ('.' :: post) = '.' :: post := by
      simp only [commaToDot, List.map_cons, if_neg (by decide : ¬('.' : Char) = ',')]
      exact congrArg _ (commaToDot_of_digits post hpost)
    rw [h2]
  have htl : ∀ cs : List Char, (String.mk cs).toList = cs := fun _ => rfl
  refine ⟨qOfParts false pre post 0, hq, ?_, ?_, ?_, ?_, ?_, ?_⟩
  · simp only [to_float]
    rw [if_neg (fun heq => stringMk_ne_empty _ hne_dot (hstr_d.symm.trans heq)), hpyd]
  · simp only [to_float_comma, pyReplaceCommaDot, pyFloatOfString, htl, hstr_c, hmapc, hq]
    rw [if_neg (stringMk_ne_empty _ hne_com)]
  · simp only [to_float_comma, pyReplaceCommaDot, pyFloatOfString, htl, hstr_d, hmapd, hq]
    rw [if_neg (stringMk_ne_empty _ hne_dot)]
  · simp only [to_float_list_comma, List.filterMap_cons, List.filterMap_nil, isna,
      pyStr, pyReplaceCommaDot, pyFloatOfString, htl, hstr_c, hmapc, hq]
    rw [if_neg (stringMk_ne_empty _ hne_com)]
    rfl
  · simp only [to_float]
    rw [if_neg (fun heq => stringMk_ne_empty _ hne_com (hstr_c.symm.trans heq)), hpyc]
  · simp only [to_float_list_cf, List.filterMap_cons, List.filterMap_nil, isna, hpyc]
    rfl

/-- C5 witness at `"53,02752"` / `"53.02752"`. -/
theorem spec2proof_C5_witness :
    ∃ q : Rat,
      pyFloatOfString (String.mk (['5', '3'] ++ '.' :: ['0', '2', '7', '5', '2'])) = some q ∧
      to_float (Cell.str (String.mk (['5', '3'] ++ '.' :: ['0', '2', '7', '5', '2']))) (.fin 0) = .fin q ∧
      to_float_comma (Cell.str (String.mk (['5', '3'] ++ ',' :: ['0', '2', '7', '5', '2']))) (.fin 0) = .fin q ∧
      to_float_comma (Cell.str (String.mk (['5', '3'] ++ '.' :: ['0', '2', '7', '5', '2']))) (.fin 0) = .fin q ∧
      to_float_list_comma [Cell.str (String.mk (['5', '3'] ++ ',' :: ['0', '2', '7', '5', '2']))] = [q] ∧
      to_float (Cell.str (String.mk (['5', '3'] ++ ',' :: ['0', '2', '7', '5', '2']))) (.fin 0) = .fin 0 ∧
      to_float_list_cf [Cell.str (String.mk (['5', '3'] ++ ',' :: ['0', '2', '7', '5', '2']))] = [] :=
  spec2proof_C5_amended ['5', '3'] ['0', '2', '7', '5', '2'] (.fin 0)
    (by decide) (by decide) (by decide)

/-! ## Claim C6 -/

/-- C6: whatever responses the endpoint returns — including non-2xx
statuses and bodies with non-empty error lists — the traced dispatch
submits exactly the same items as the untraced dispatch order, each
exactly once: a failed item never raises, never retries, and never stops
the remaining items of its stage or of later stages. -/
theorem spec2proof_C6 (responses : Nat → HttpResponse) (d : ParsedData)
    (j : Nat) (_hfail : isFailure (responses j) = true) :
    (dispatchTraced responses d).map Prod.fst = dispatchPhase d ∧
    (dispatchTraced responses d).length = (dispatchPhase d).length := by
  have hmain : (dispatchTraced responses d).map Prod.fst = dispatchPhase d := by
    unfold dispatchTraced
    rw [foldl_stageTraced_map_fst]
    simp only [List.map_nil, List.nil_append, List.flatten_cons,
      List.flatten_nil, List.append_nil, dispatchPhase, List.append_assoc]
  exact ⟨hmain, by rw [← hmain, List.length_map]⟩

/-- C6 witness: a run whose every response is a 500 with a GraphQL error
still submits every item. -/
theorem spec2proof_C6_witness :
    (dispatchTraced (fun _ => ⟨500, .json ["boom"]⟩)
        { setup := [], scenarios := [⟨"s1", .fin 1⟩],
          nodes := [⟨"n1", false, false, false, [], []⟩],
          nodeStates := [], processes := [], groups := ⟨[], [], [], []⟩,
          topologies := [], markets := [], risks := [] }).map Prod.fst =
      dispatchPhase
        { setup := [], scenarios := [⟨"s1", .fin 1⟩],
          nodes := [⟨"n1", false, false, false, [], []⟩],
          nodeStates := [], processes := [], groups := ⟨[], [], [], []⟩,
          topologies := [], markets := [], risks := [] } ∧
    (dispatchTraced (fun _ => ⟨500, .json ["boom"]⟩)
        { setup := [], scenarios := [⟨"s1", .fin 1⟩],
          nodes := [⟨"n1", false, false, false, [], []⟩],
          nodeStates := [], processes := [], groups := ⟨[], [], [], []⟩,
          topologies := [], markets := [], risks := [] }).length =
      (dispatchPhase
        { setup := [], scenarios := [⟨"s1", .fin 1⟩],
          nodes := [⟨"n1", false, false, false, [], []⟩],
          nodeStates := [], processes := [], groups := ⟨[], [], [], []⟩,
          topologies := [], markets := [], risks := [] }).length :=
  spec2proof_C6 (fun _ => ⟨500, .json ["boom"]⟩)
    { setup := [], scenarios := [⟨"s1", .fin 1⟩],
      nodes := [⟨"n1", false, false, false, [], []⟩],
      nodeStates := [], processes := [], groups := ⟨[], [], [], []⟩,
      topologies := [], markets := [], risks := [] }
    0 (by decide)

/-! ## Claim C7 -/

/-- C7: the inflow enrichment replaces (not appends to) the `inflow`
field of exactly the nodes whose name is a key of the decoded map,
leaves the `inflow` of every other node unchanged, and modifies no other
field of any node. -/
theorem spec2proof_C7 (entries : List (String × ValueInput))
    (nodes : List NewNode) (i : Nat) (hi : i < nodes.length) :
    ∃ n n', nodes[i]? = some n ∧ (attachInflow entries nodes)[i]? = some n' ∧
      n'.name = n.name ∧ n'.isCommodity = n.isCommodity ∧
      n'.isMarket = n.isMarket ∧ n'.isRes = n.isRes ∧ n'.cost = n.cost ∧
      (mapMem entries n.name = true → n'.inflow = mapEntries entries n.name) ∧
      (mapMem entries n.name = false → n'.inflow = n.inflow) := by
  have hn : nodes[i]? = some nodes[i] := List.getElem?_eq_getElem hi
  by_cases he : entries.isEmpty
  · have hee : entries = [] := List.isEmpty_iff.mp he
    refine ⟨nodes[i], nodes[i], hn, ?_, rfl, rfl, rfl, rfl, rfl, ?_, fun _ => rfl⟩
    · unfold attachInflow
      rw [if_pos he]
      exact hn
    · intro hmem
      rw [hee] at hmem
      exact absurd hmem (by simp [mapMem])
  · have hmap : (attachInflow entries nodes)[i]? =
        some (if mapMem entries nodes[i].name then
                { nodes[i] with inflow := mapEntries entries nodes[i].name }
              else nodes[i]) := by
      unfold attachInflow
      rw [if_neg he, List.getElem?_map, hn]
      rfl
    by_cases hm : mapMem entries nodes[i].name
    · refine ⟨nodes[i], { nodes[i] with inflow := mapEntries entries nodes[i].name },
        hn, ?_, rfl, rfl, rfl, rfl, rfl, fun _ => rfl, ?_⟩
      · rw [hmap, if_pos hm]
      · intro hno
        exact absurd hm (by rw [hno]; simp)
    · refine ⟨nodes[i], nodes[i], hn, ?_, rfl, rfl, rfl, rfl, rfl, ?_, fun _ => rfl⟩
      · rw [hmap, if_neg hm]
      · intro hmem
        exact absurd hmem (by simpa using hm)

/-- C7 witness: a two-node list where only `"n1"` is in the map. -/
theorem spec2proof_C7_witness :
    ∃ n n', (([⟨"n1", false, false, false, [], []⟩,
               ⟨"n2", true, false, false, [], []⟩] : List NewNode))[0]? = some n ∧
      (attachInflow [("n1", ⟨none, .constant 1⟩)]
        [⟨"n1", false, false, false, [], []⟩,
         ⟨"n2", true, false, false, [], []⟩])[0]? = some n' ∧
      n'.name = n.name ∧ n'.isCommodity = n.isCommodity ∧
      n'.isMarket = n.isMarket ∧ n'.isRes = n.isRes ∧ n'.cost = n.cost ∧
      (mapMem [("n1", ⟨none, .constant 1⟩)] n.name = true →
        n'.inflow = mapEntries [("n1", ⟨none, .constant 1⟩)] n.name) ∧
      (mapMem [("n1", ⟨none, .constant 1⟩)] n.name = false →
        n'.inflow = n.inflow) :=
  spec2proof_C7 [("n1", ⟨none, .constant 1⟩)]
    [⟨"n1", false, false, false, [], []⟩, ⟨"n2", true, false, false, [], []⟩]
    0 (by decide)

/-! ## Claim C8 -/

/-- C8 counterexample: a non-empty topology collection is persisted as
only the combined file, and likewise a non-empty risk collection — no
per-item files exist for them — while a non-empty node collection does
get both forms; this refutes the both-forms-for-every-type claim. -/
theorem spec2proof_C8_counterexample :
    (save_topology_payloads
        [⟨"p1", none, some "n1", ⟨.fin 10, .fin 0, .fin 0, .fin 0, .fin 0, .fin 0, []⟩⟩]).map
        Prod.fst = ["topologies_all.json"] ∧
    (save_risk_payloads [⟨"alfa", .fin (1 / 10)⟩]).map Prod.fst = ["risks_all.json"] ∧
    (save_node_payloads [⟨"n1", false, false, false, [], []⟩]).map Prod.fst =
      ["node_n1.json", "nodes_all.json"] := by
  refine ⟨rfl, rfl, ?_⟩
  decide

/-- C8 (amended): node, node-state, process, and market collections are
persisted as one envelope file per item, named from the item's sanitized
primary name, plus one combined `_all` file; topology and risk
collections are persisted only as the combined file. -/
theorem spec2proof_C8_amended (nodes : List NewNode) (states : List NodeStateItem)
    (procs : List NewProcess) (markets : List MarketRec)
    (topos : List TopoCall) (risks : List RiskRec)
    (hm : markets ≠ []) (ht : topos ≠ []) (hr : risks ≠ []) :
    (save_node_payloads nodes).map Prod.fst =
      nodes.map (fun n => "node_" ++ sanitize n.name "node" ++ ".json") ++
        ["nodes_all.json"] ∧
    (save_node_state_payloads states).map Prod.fst =
      states.map (fun it => "node_state_" ++ sanitize it.nodeName "node" ++ ".json") ++
        ["node_states_all.json"] ∧
    (save_process_payloads procs).map Prod.fst =
      procs.map (fun p => "process_" ++ sanitize p.name "process" ++ ".json") ++
        ["processes_all.json"] ∧
    (save_market_payloads markets).map Prod.fst =
      markets.map (fun m => "market_" ++ sanitize m.name "market" ++ ".json") ++
        ["markets_all.json"] ∧
    (save_topology_payloads topos).map Prod.fst = ["topologies_all.json"] ∧
    (save_risk_payloads risks).map Prod.fst = ["risks_all.json"] ∧
    (save_node_payloads nodes).map Prod.snd =
      nodes.map (fun n => FileContent.single (.node n)) ++
        [FileContent.combined (nodes.map .node)] := by
  have hmb : markets.isEmpty = false :=
    Bool.eq_false_iff.mpr (fun hb => hm (List.isEmpty_iff.mp hb))
  have htb : topos.isEmpty = false :=
    Bool.eq_false_iff.mpr (fun hb => ht (List.isEmpty_iff.mp hb))
  have hrb : risks.isEmpty = false :=
    Bool.eq_false_iff.mpr (fun hb => hr (List.isEmpty_iff.mp hb))
  refine ⟨?_, ?_, ?_, ?_, ?_, ?_, ?_⟩
  · simp [save_node_payloads, List.map_append, List.map_map, Function.comp]
  · simp [save_node_state_payloads, List.map_append, List.map_map, Function.comp]
  · simp [save_process_payloads, List.map_append, List.map_map, Function.comp]
  · simp [save_market_payloads, hmb, List.map_append, List.map_map, Function.comp]
  · simp [save_topology_payloads, htb]
  · simp [save_risk_payloads, hrb]
  · simp [save_node_payloads, List.map_append, List.map_map, Function.comp]

/-- C8 witness: singleton collections of every type. -/
theorem spec2proof_C8_witness :
    (save_market_payloads
        [⟨"m1", "ENERGY", "n1", "g1", none, [], none, false, false,
          .fin 0, .fin 0, .fin 0, [], [], [], []⟩]).map Prod.fst =
      ["market_m1.json", "markets_all.json"] ∧
    (save_topology_payloads
        [⟨"p1", none, some "n1", ⟨.fin 10, .fin 0, .fin 0, .fin 0, .fin 0, .fin 0, []⟩⟩]).map
        Prod.fst = ["topologies_all.json"] ∧
    (save_risk_payloads [⟨"alfa", .fin (1 / 10)⟩]).map Prod.fst = ["risks_all.json"] := by
  have h := spec2proof_C8_amended [] [] []
    [⟨"m1", "ENERGY", "n1", "g1", none, [], none, false, false,
      .fin 0, .fin 0, .fin 0, [], [], [], []⟩]
    [⟨"p1", none, some "n1", ⟨.fin 10, .fin 0, .fin 0, .fin 0, .fin 0, .fin 0, []⟩⟩]
    [⟨"alfa", .fin (1 / 10)⟩] (by simp) (by simp) (by simp)
  refine ⟨?_, h.2.2.2.2.1, h.2.2.2.2.2.1⟩
  rw [h.2.2.2.1]
  decide

/-! ## Claim C9 -/

/-- C9 counterexample: the setup parser's inline boolean coercion maps
`"Y"` to false, while the shared `_to_bool` helper maps it to true —
refuting the single-coercion table claimed for all entity parsers. -/
theorem spec2proof_C9_counterexample :
    setupBool (Cell.str "Y") = .ok false ∧ to_bool (Cell.str "Y") = true :=
  ⟨rfl, by decide⟩

/-- C9 (amended): the shared `_to_bool` helper maps 1/true/yes/y/t
(case-insensitive, trimmed) to true and 0/false/no/n/f/"" to false, with
other strings and non-None non-strings coerced via `int()` falling back
to the input's truthiness, and Python `None` to false; the setup
parser's inline coercion instead recognizes only 1/true/yes
(case-insensitive) as true, mapping every other string — including
Y/y/t — to false, and coerces non-strings via `int()`. -/
theorem spec2proof_C9_amended (s : String) (c : Cell)
    (hcs : ∀ t, c ≠ Cell.str t) (hcn : c ≠ Cell.pynone) :
    (pyLower (pyStrip s) ∈ ["1", "true", "yes", "y", "t"] →
      to_bool (.str s) = true) ∧
    (pyLower (pyStrip s) ∈ ["0", "false", "no", "n", "f", ""] →
      to_bool (.str s) = false) ∧
    (pyLower (pyStrip s) ∉ ["1", "true", "yes", "y", "t"] →
      pyLower (pyStrip s) ∉ ["0", "false", "no", "n", "f", ""] →
      to_bool (.str s) =
        (match pyInt (.str s) with
         | some n => decide (n ≠ 0)
         | none => pyTruthy (.str s))) ∧
    to_bool Cell.pynone = false ∧
    (to_bool c =
      (match pyInt c with
       | some n => decide (n ≠ 0)
       | none => pyTruthy c)) ∧
    setupBool (.str s) = .ok (decide (pyLower (pyStrip s) ∈ ["1", "true", "yes"])) := by
  refine ⟨?_, ?_, ?_, rfl, ?_, rfl⟩
  · intro hmem
    simp only [to_bool]
    rw [if_pos hmem]
  · intro hmem
    have hdisj : ∀ a ∈ (["0", "false", "no", "n", "f", ""] : List String),
        a ∉ (["1", "true", "yes", "y", "t"] : List String) := by decide
    simp only [to_bool]
    rw [if_neg (hdisj _ hmem), if_pos hmem]
  · intro hne1 hne2
    simp only [to_bool]
    rw [if_neg hne1, if_neg hne2]
  · cases c with
    | pynone => exact absurd rfl hcn
    | nan => rfl
    | str t => exact absurd rfl (hcs t)
    | int n => rfl
    | float q => rfl

/-- C9 witness at `"Y"` (helper true, setup false) and a NaN cell. -/
theorem spec2proof_C9_witness :
    to_bool (.str "Y") = true ∧
    setupBool (.str "Y") = .ok (decide (pyLower (pyStrip "Y") ∈ ["1", "true", "yes"])) ∧
    to_bool Cell.nan =
      (match pyInt Cell.nan with
       | some n => decide (n ≠ 0)
       | none => pyTruthy Cell.nan) :=
  ⟨(spec2proof_C9_amended "Y" Cell.nan (by intro t h; cases h) (by simp)).1 (by decide),
   (spec2proof_C9_amended "Y" Cell.nan (by intro t h; cases h) (by simp)).2.2.2.2.2,
   (spec2proof_C9_amended "Y" Cell.nan (by intro t h; cases h) (by simp)).2.2.2.2.1⟩

/-! ## Claim C10 -/

/-- C10: a setup row with a recognized parameter but an NA value stores
the mapped GraphQL field with an explicit null (the field is present in
the dict, not omitted), and a row with an unrecognized parameter name
contributes nothing; appending such a row to any successfully parsed
prefix behaves the same. -/
theorem spec2proof_C10 (acc : SetupDict) (r : SetupRow) :
    (field_map.find? (fun p => p.1 == pyStrip (pyStr r.parameter)) = none →
      setupStep acc r = .ok acc) ∧
    (∀ pf, field_map.find? (fun p => p.1 == pyStrip (pyStr r.parameter)) = some pf →
      isna r.value = true →
      setupStep acc r = .ok (dictSet acc pf.2 none) ∧
      dictLookup (dictSet acc pf.2 none) pf.2 = some none) ∧
    (∀ rows, parse_setup rows = .ok acc →
      parse_setup (rows ++ [r]) = setupStep acc r) := by
  refine ⟨?_, ?_, ?_⟩
  · intro hfind
    simp only [setupStep, hfind]
  · intro pf hfind hna
    constructor
    · simp only [setupStep, hfind]
      rw [if_pos hna]
    · exact dictLookup_dictSet acc pf.2 none
  · intro rows hrows
    unfold parse_setup at hrows ⊢
    rw [List.foldlM_append, hrows]
    show (setupStep acc r >>= fun b => pure b) = setupStep acc r
    exact bind_pure (setupStep acc r)

/-- C10 witness: a recognized parameter (`use_reserves`) with an NA value
stores a null `useReserves`; a bogus parameter contributes nothing. -/
theorem spec2proof_C10_witness :
    (setupStep [] ⟨Cell.str "use_reserves", Cell.nan⟩ =
      .ok (dictSet [] "useReserves" none) ∧
     dictLookup (dictSet [] "useReserves" none) "useReserves" = some none) ∧
    setupStep [("useReserves", none)] ⟨Cell.str "bogus", Cell.int 1⟩ =
      .ok [("useReserves", none)] :=
  ⟨(spec2proof_C10 [] ⟨Cell.str "use_reserves", Cell.nan⟩).2.1
      ("use_reserves", "useReserves") (by decide) (by decide),
   (spec2proof_C10 [("useReserves", none)] ⟨Cell.str "bogus", Cell.int 1⟩).1 (by decide)⟩

end Hertta
